import Mathlib

/-!
# Verification of the lol-game-scraper crawl engine

Shallow embedding of the core of `rossnoah/lol-game-scraper`:
the credential health state (`api-status.ts`), the dual-window rate
limiter and retrying request loop (`riot-api.ts`), the persistence
queries (`db/queries.ts` over the schema of `db/schema.ts`), and the
region worker's scrape round, patch detection and patch-boundary
discovery (`scraper/worker.ts`).

Modelling conventions:
* Match identifiers and player identifiers are opaque tokens compared
  only for equality in the source; they are carried as `Nat`.
* A game-version string such as `"14.24.123.456"` is carried as the
  list of its numeric dot-separated components `[14, 24, 123, 456]`;
  `extractPatch` takes the first two components, mirroring
  `parts[0]`/`parts[1]` of the source's `split('.')` (a missing
  component defaults to `0`, standing in for JavaScript's `NaN` case,
  which is outside the scope of the claims).
* Times are milliseconds (`Int` for the rate limiter, mirroring the
  source's signed subtraction; `Nat` elsewhere).
* Asynchronous sleeps are modelled as idealized time accounting: a
  sleep of `w` ms advances the clock by exactly `w`, and everything
  else is instantaneous.
* Network responses and database contents enter as explicit
  environment parameters; a fetch degraded to "no data" is `none`.
-/

namespace LolScraper

/-! ## Configuration constants (src/config.ts) -/

def burstLimit : Nat := 20
def burstWindowMs : Int := 1000
def sustainedLimit : Nat := 100
def sustainedWindowMs : Int := 120000
def validQueueIds : List Nat := [420]
def minGameDurationSeconds : Nat := 480

/-! ## Credential health state (src/scraper/api-status.ts)

`apiKeyValid` / `apiKeyInvalidSince` are module-level mutable variables
shared by all workers; we model them as an explicit state record and the
two transition functions. -/

structure ApiKeyState where
  valid : Bool
  invalidSince : Option Nat
deriving DecidableEq, Repr

/-- The initial module state: `apiKeyValid = true`, `apiKeyInvalidSince = null`. -/
def initialApiKeyState : ApiKeyState := ⟨true, none⟩

/-- `markApiKeyInvalid()`: flips to invalid and records the current time,
but only when currently valid (the body is guarded by `if (apiKeyValid)`). -/
def markApiKeyInvalid (now : Nat) (s : ApiKeyState) : ApiKeyState :=
  if s.valid then ⟨false, some now⟩ else s

/-- `markApiKeyValid()`: flips to valid and clears the timestamp, but only
when currently invalid (guarded by `if (!apiKeyValid)`). -/
def markApiKeyValid (s : ApiKeyState) : ApiKeyState :=
  if s.valid then s else ⟨true, none⟩

/-- States reachable from the module's initial state by the two
transitions (the only writers of the two variables). -/
inductive ReachableKeyState : ApiKeyState → Prop where
  | init : ReachableKeyState initialApiKeyState
  | inv (now : Nat) {s : ApiKeyState} :
      ReachableKeyState s → ReachableKeyState (markApiKeyInvalid now s)
  | val {s : ApiKeyState} :
      ReachableKeyState s → ReachableKeyState (markApiKeyValid s)

/-! ## Rate limiter (src/scraper/riot-api.ts, `rateLimit`) -/

/-- One `rateLimit()` invocation: the waits it computes, the timestamp it
pushes (`Date.now()` after the sleeps), and the resulting history. -/
structure RateLimitResult where
  sustainedWait : Int
  burstWait : Int
  recordTime : Int
  timestamps : List Int
deriving DecidableEq, Repr

/-- `rateLimit()`: prune the history to the sustained window, sleep if the
sustained count is at the limit, then check the burst sub-window (using the
same, not re-read, `now`) and sleep again if saturated, then record a fresh
timestamp.  `recordTime = now + waits` models `Date.now()` after the sleeps. -/
def rateLimit (timestamps : List Int) (now : Int) : RateLimitResult :=
  let ts := timestamps.filter (fun t => now - t < sustainedWindowMs)
  let sWait : Int :=
    if sustainedLimit ≤ ts.length then
      let w := sustainedWindowMs - (now - ts.headD 0) + 100
      if 0 < w then w else 0
    else 0
  let recent := ts.filter (fun t => now - t < burstWindowMs)
  let bWait : Int :=
    if burstLimit ≤ recent.length then
      let w := burstWindowMs - (now - recent.headD 0) + 50
      if 0 < w then w else 0
    else 0
  let record := now + sWait + bWait
  ⟨sWait, bWait, record, ts ++ [record]⟩

/-- `n` calls issued in immediate succession through one client: each call
enters `rateLimit` at the instant the previous call's timestamp was
recorded. -/
def runCalls : Nat → List Int → Int → List RateLimitResult
  | 0, _, _ => []
  | n + 1, ts, now =>
    let r := rateLimit ts now
    r :: runCalls n r.timestamps r.recordTime

/-- The sequence of results for `n` immediate calls on a fresh client
starting at time `0`. -/
def callResults (n : Nat) : List RateLimitResult := runCalls n [] 0

/-- Recorded timestamp of call `i` (0-based) in a burst of `n` calls. -/
def rtime (n i : Nat) : Int := ((callResults n).getD i ⟨0, 0, 0, []⟩).recordTime

/-- Sustained-window wait computed by call `i` (0-based) in a burst of `n`. -/
def swait (n i : Nat) : Int := ((callResults n).getD i ⟨0, 0, 0, []⟩).sustainedWait

/-! ## Retrying request loop (src/scraper/riot-api.ts, `request`)

`request<T>(url, retries = 3)` first throws `ApiKeyInvalidError` if the
credential state is invalid, then loops over `attempt in [0, retries)`
classifying each response by status code.  The response to each attempt is
supplied by an oracle `resp : Nat → ApiResponse`; the `rateLimit()` call at
the top is modelled separately above. -/

inductive ApiResponse where
  /-- 2xx response carrying a payload. -/
  | success
  /-- Axios error with a response status; `retryAfter` is the numeric
  `retry-after` header of a 429, when present. -/
  | http (status : Nat) (retryAfter : Option Nat)
  /-- Non-HTTP failure (network error, no status). -/
  | netErr
deriving DecidableEq, Repr

inductive Outcome where
  /-- `ApiKeyInvalidError` was thrown. -/
  | threwInvalid
  /-- The parsed payload was returned. -/
  | payload
  /-- `null` was returned (absorbed / degraded to "no data"). -/
  | noData
deriving DecidableEq, Repr

structure RequestResult where
  outcome : Outcome
  key : ApiKeyState
  sleptMs : Nat
  /-- Number of loop iterations consumed (each increments `attempt`). -/
  attemptsUsed : Nat
deriving DecidableEq, Repr

/-- The `for (attempt = 0; attempt < retries; attempt++)` body.  `fuel` is
`retries - attempt`; a 429 sleeps `retry-after` seconds (header defaulting
to `'5'`) and `continue`s, which still advances `attempt`; any other
unclassified failure sleeps the linear backoff `1000 * (attempt + 1)` when
`attempt < retries - 1` and also advances `attempt`. -/
def requestLoop (resp : Nat → ApiResponse) (now : Nat) :
    Nat → Nat → ApiKeyState → Nat → Nat → RequestResult
  | _, 0, key, slept, used => ⟨.noData, key, slept, used⟩
  | attempt, fuel + 1, key, slept, used =>
    match resp attempt with
    | .success => ⟨.payload, markApiKeyValid key, slept, used + 1⟩
    | .http status h =>
      if status = 401 then ⟨.threwInvalid, markApiKeyInvalid now key, slept, used + 1⟩
      else if status = 403 then ⟨.noData, key, slept, used + 1⟩
      else if status = 429 then
        requestLoop resp now (attempt + 1) fuel key (slept + h.getD 5 * 1000) (used + 1)
      else if status = 404 then ⟨.noData, key, slept, used + 1⟩
      else
        let backoff := if 1 ≤ fuel then 1000 * (attempt + 1) else 0
        requestLoop resp now (attempt + 1) fuel key (slept + backoff) (used + 1)
    | .netErr =>
      let backoff := if 1 ≤ fuel then 1000 * (attempt + 1) else 0
      requestLoop resp now (attempt + 1) fuel key (slept + backoff) (used + 1)

/-- `request(url, retries)`: throw immediately when the credential is
already invalid, otherwise run the attempt loop. -/
def request (resp : Nat → ApiResponse) (key : ApiKeyState) (now : Nat)
    (retries : Nat) : RequestResult :=
  if key.valid = false then ⟨.threwInvalid, key, 0, 0⟩
  else requestLoop resp now 0 retries key 0 0

/-! ## Match data and persistence (src/db/queries.ts, src/db/schema.ts)

The `matches` table has `match_id TEXT UNIQUE NOT NULL`; `INSERT OR
IGNORE` therefore inserts exactly when the identifier is absent.  The
table is modelled as the list of its rows in insertion order. -/

/-- A patch is the first two numeric components of a game version
(`"14.24"` ↦ `(14, 24)`). -/
abbrev Patch := Nat × Nat

structure MatchInfo where
  /-- `info.gameCreation`, milliseconds since epoch. -/
  gameCreation : Nat
  /-- `info.gameDuration`, seconds. -/
  gameDuration : Nat
  /-- `info.gameVersion` as its numeric dot-components. -/
  gameVersion : List Nat
  /-- `info.queueId`. -/
  queueId : Nat
deriving DecidableEq, Repr

structure MatchData where
  matchId : Nat
  info : MatchInfo
deriving DecidableEq, Repr

structure MatchRow where
  match_id : Nat
  patch : Patch
  data : MatchData
deriving DecidableEq, Repr

/-- `matchExists(matchId)`: `SELECT 1 FROM matches WHERE match_id = ?`. -/
def matchExists (rows : List MatchRow) (id : Nat) : Bool :=
  rows.any (fun r => r.match_id == id)

/-- Effect of `INSERT OR IGNORE INTO matches` on the table. -/
def insertMatchRow (rows : List MatchRow) (id : Nat) (patch : Patch)
    (data : MatchData) : List MatchRow :=
  if matchExists rows id then rows else rows ++ [⟨id, patch, data⟩]

/-- `saveMatch(matchId, patch, data)`: runs the `INSERT OR IGNORE` and
returns `true`; only a thrown persistence error (`dbError`) yields
`false`, in which case the table is untouched. -/
def saveMatch (dbError : Bool) (rows : List MatchRow) (id : Nat)
    (patch : Patch) (data : MatchData) : Bool × List MatchRow :=
  if dbError then (false, rows) else (true, insertMatchRow rows id patch data)

/-! ## Region worker (src/scraper/worker.ts) -/

/-- `extractPatch(gameVersion)`: `"${parts[0]}.${parts[1]}"` of
`gameVersion.split('.')` — the first two numeric components. -/
def extractPatch (gameVersion : List Nat) : Patch :=
  (gameVersion.headD 0, (gameVersion.drop 1).headD 0)

/-- `comparePatch(a, b)`: compare major, then minor, as numbers. -/
def comparePatch (a b : Patch) : Int :=
  if a.1 ≠ b.1 then (a.1 : Int) - b.1 else (a.2 : Int) - b.2

/-- `isValidMatch(match)`: queue id in the allow-list and duration not
below the configured minimum. -/
def isValidMatch (m : MatchData) : Bool :=
  validQueueIds.contains m.info.queueId &&
    !(m.info.gameDuration < minGameDurationSeconds)

/-- Environment of one scrape round: the page of match identifiers the
remote API returns for a given player and offset (the configured count and
the patch-boundary `startTime` are constant within a round and folded into
this function), the result of each match-detail fetch (`none` covers
absent and degraded-to-null fetches alike), whether persisting a given
match hits a database error, and the worker's target patch. -/
structure WorkerEnv where
  page : Nat → Nat → List Nat
  details : Nat → Option MatchData
  dbError : Nat → Bool
  targetPatch : Option Patch

/-- Result of the per-match body of `scrapeRound`'s inner loop. -/
structure MatchStep where
  store : List MatchRow
  /-- Whether `getMatchDetails` was called for this identifier. -/
  fetchedDetail : Bool
  /-- Whether `saveMatch` was called. -/
  saved : Bool
deriving DecidableEq, Repr

/-- One iteration of the per-match loop: skip known identifiers before
fetching details, skip absent details, skip invalid matches, skip
off-target patches, otherwise persist. -/
def processMatch (env : WorkerEnv) (store : List MatchRow) (mid : Nat) :
    MatchStep :=
  if matchExists store mid then ⟨store, false, false⟩
  else
    match env.details mid with
    | none => ⟨store, true, false⟩
    | some md =>
      if !isValidMatch md then ⟨store, true, false⟩
      else
        let patch := extractPatch md.info.gameVersion
        let offTarget : Bool := match env.targetPatch with
          | some t => patch != t
          | none => false
        if offTarget then ⟨store, true, false⟩
        else ⟨(saveMatch (env.dbError mid) store mid patch md).2, true, true⟩

structure PageResult where
  /-- Value of the shared stop-check counter after this loop. -/
  counter : Nat
  store : List MatchRow
  /-- Number of identifiers whose loop body ran (the cooperative
  `if (!this.running) break` passed). -/
  examined : Nat
deriving DecidableEq, Repr

/-- The per-match loop over one player's page.  `running i` is the value
of the shared `this.running` flag at the `i`-th cooperative check; the
counter threads through the whole round. -/
def processPage (env : WorkerEnv) (running : Nat → Bool) :
    Nat → List MatchRow → List Nat → PageResult
  | c, store, [] => ⟨c, store, 0⟩
  | c, store, mid :: rest =>
    if running c = false then ⟨c + 1, store, 0⟩
    else
      let st := (processMatch env store mid).store
      let r := processPage env running (c + 1) st rest
      ⟨r.counter, r.store, r.examined + 1⟩

structure PlayerResult where
  counter : Nat
  store : List MatchRow
  /-- The player's stored offset after this iteration. -/
  offset : Nat
deriving DecidableEq, Repr

/-- One player's iteration of `scrapeRound`: fetch the page at the stored
offset; an empty page `continue`s (offset untouched); otherwise run the
per-match loop and then — even after an early `break` — advance the
offset by the full page length. -/
def processPlayer (env : WorkerEnv) (running : Nat → Bool) (c : Nat)
    (store : List MatchRow) (puuid offset : Nat) : PlayerResult :=
  let mids := env.page puuid offset
  if mids.isEmpty then ⟨c, store, offset⟩
  else
    let r := processPage env running c store mids
    ⟨r.counter, r.store, offset + mids.length⟩

structure RoundResult where
  store : List MatchRow
  /-- `(puuid, match_offset)` of every roster player after the round. -/
  players : List (Nat × Nat)
deriving DecidableEq, Repr

/-- The per-player loop of `scrapeRound` over the roster, with the
cooperative stop check at the top of each player iteration.  Players not
reached because of a stop keep their stored offsets. -/
def processRound (env : WorkerEnv) (running : Nat → Bool) :
    Nat → List MatchRow → List (Nat × Nat) → RoundResult
  | _, store, [] => ⟨store, []⟩
  | c, store, (p, off) :: rest =>
    if running c = false then ⟨store, (p, off) :: rest⟩
    else
      let r := processPlayer env running (c + 1) store p off
      let rr := processRound env running r.counter r.store rest
      ⟨rr.store, (p, r.offset) :: rr.players⟩

/-- Modelled from the spec: the remote match-history endpoint's offset
pagination, which is not part of this repository.  Per §6 the endpoint
lists "match identifiers for (player identifier, offset, count, …)" and
per §3 a player's offset "is the count of matches already requested for
that player": the page at `offset` is the next `count` identifiers of the
player's full history. -/
def apiPage (history : List Nat) (offset count : Nat) : List Nat :=
  (history.drop offset).take count

/-! ### Patch auto-detection (`detectLatestPatch`) -/

/-- The comparator passed to `sort` in `detectLatestPatch`:
`(a, b) => bMajor - aMajor`, tie broken by `bMinor - aMinor`
(numerically descending). -/
def detectCmp (a b : Patch) : Int :=
  if a.1 ≠ b.1 then (b.1 : Int) - a.1 else (b.2 : Int) - a.2

/-- `patchCounts.set(patch, …)`: a `Map`'s keys stay in first-insertion
order, so the key list gains `p` only when new. -/
def insertKey (keys : List Patch) (p : Patch) : List Patch :=
  if keys.contains p then keys else keys ++ [p]

/-- The keys of `patchCounts` after sampling: for each of the first five
players, the page `getMatchHistory(puuid, 0, 10)`; if non-empty, the
detail of its most recent identifier; if present, its extracted patch.
(The map's counts are written but never read by the selection, so only
the key order matters.) -/
def sampledKeys (pageAt : Nat → List Nat) (details : Nat → Option MatchData)
    (players : List Nat) : List Patch :=
  (players.take 5).foldl
    (fun keys p =>
      match pageAt p with
      | [] => keys
      | m0 :: _ =>
        match details m0 with
        | none => keys
        | some md => insertKey keys (extractPatch md.info.gameVersion))
    []

/-- Insertion step of the comparison sort below. -/
def insertDesc (p : Patch) : List Patch → List Patch
  | [] => [p]
  | q :: rest => if detectCmp p q ≤ 0 then p :: q :: rest else q :: insertDesc p rest

/-- `Array.from(patchCounts.keys()).sort(cmp)`: the keys are distinct and
`detectCmp` is a total order on them, so `Array.prototype.sort` returns
the uniquely determined sorted list, computed here by insertion sort. -/
def sortPatchesDesc (keys : List Patch) : List Patch :=
  keys.foldr insertDesc []

/-- `detectLatestPatch(players)`: sample, sort the distinct patches
numerically descending, return the first (or `null` when nothing was
sampled). -/
def detectLatestPatch (pageAt : Nat → List Nat)
    (details : Nat → Option MatchData) (players : List Nat) : Option Patch :=
  match sortPatchesDesc (sampledKeys pageAt details players) with
  | [] => none
  | p :: _ => some p

/-! ### Patch-boundary discovery (`findPatchBoundary`) -/

/-- Timestamp sanity floor used by `findPatchBoundary`
(`if (timestamp < 1623801600) continue`). -/
def sanityFloor : Nat := 1623801600

structure BoundaryScan where
  boundary : Option Nat
  /-- Number of identifiers whose loop body ran (each calls
  `getMatchDetails`). -/
  examined : Nat
deriving DecidableEq, Repr

/-- The sampling loop of `findPatchBoundary`: walk the identifiers newest
to oldest; skip absent details and sub-floor timestamps; overwrite the
accumulator on every target-patch match (so it ends at the oldest one
seen); `break` at the first numerically older patch. -/
def scanBoundary (details : Nat → Option MatchData) (target : Patch) :
    List Nat → Option Nat → BoundaryScan
  | [], acc => ⟨acc, 0⟩
  | mid :: rest, acc =>
    match details mid with
    | none =>
      let r := scanBoundary details target rest acc
      ⟨r.boundary, r.examined + 1⟩
    | some md =>
      let patch := extractPatch md.info.gameVersion
      let timestamp := md.info.gameCreation / 1000
      if timestamp < sanityFloor then
        let r := scanBoundary details target rest acc
        ⟨r.boundary, r.examined + 1⟩
      else if patch = target then
        let r := scanBoundary details target rest (some timestamp)
        ⟨r.boundary, r.examined + 1⟩
      else if comparePatch patch target < 0 then ⟨acc, 1⟩
      else
        let r := scanBoundary details target rest acc
        ⟨r.boundary, r.examined + 1⟩

/-- `findPatchBoundary(puuid)`: no target patch → `null`; a truthy DB
timestamp for the target patch → that; an empty 20-identifier sample →
`null`; otherwise the scan above starting from `null`. -/
def findPatchBoundary (details : Nat → Option MatchData)
    (targetPatch : Option Patch) (dbTs : Option Nat) (mids : List Nat) :
    BoundaryScan :=
  match targetPatch with
  | none => ⟨none, 0⟩
  | some t =>
    if dbTs.getD 0 ≠ 0 then ⟨dbTs, 0⟩
    else if mids.isEmpty then ⟨none, 0⟩
    else scanBoundary details t mids none

/-- Any interleaved sequence of `saveMatch` calls, as seen by the single
`matches` table (duplicates may arrive from overlapping rounds or
workers). -/
def saveAll (ops : List (Nat × Patch × MatchData)) (rows : List MatchRow) :
    List MatchRow :=
  ops.foldl (fun rows op => (saveMatch false rows op.1 op.2.1 op.2.2).2) rows

/-! ## Helper lemmas -/

theorem matchExists_iff_mem {rows : List MatchRow} {id : Nat} :
    matchExists rows id = true ↔ id ∈ rows.map MatchRow.match_id := by
  constructor
  · intro h
    obtain ⟨r, hr, he⟩ := List.any_eq_true.mp h
    exact List.mem_map.mpr ⟨r, hr, beq_iff_eq.mp he⟩
  · intro h
    obtain ⟨r, hr, he⟩ := List.mem_map.mp h
    exact List.any_eq_true.mpr ⟨r, hr, by simp [he]⟩

theorem insertMatchRow_nodup {rows : List MatchRow} {id : Nat} {patch : Patch}
    {d : MatchData} (h : (rows.map MatchRow.match_id).Nodup) :
    ((insertMatchRow rows id patch d).map MatchRow.match_id).Nodup := by
  unfold insertMatchRow
  split
  · exact h
  · rename_i hex
    have : id ∉ rows.map MatchRow.match_id := by
      intro hm
      exact hex (matchExists_iff_mem.mpr hm)
    simpa [List.nodup_append, this] using h

theorem saveMatch_nodup {b : Bool} {rows : List MatchRow} {id : Nat}
    {patch : Patch} {d : MatchData} (h : (rows.map MatchRow.match_id).Nodup) :
    (((saveMatch b rows id patch d).2).map MatchRow.match_id).Nodup := by
  unfold saveMatch
  cases b
  · simpa using insertMatchRow_nodup h
  · simpa using h

theorem processMatch_nodup {env : WorkerEnv} {store : List MatchRow} {mid : Nat}
    (h : (store.map MatchRow.match_id).Nodup) :
    (((processMatch env store mid).store).map MatchRow.match_id).Nodup := by
  unfold processMatch
  split
  · exact h
  · split
    · exact h
    · split
      · exact h
      · dsimp only
        split
        · exact h
        · exact saveMatch_nodup h

theorem processPage_nodup (env : WorkerEnv) (running : Nat → Bool)
    (mids : List Nat) :
    ∀ (c : Nat) (store : List MatchRow), (store.map MatchRow.match_id).Nodup →
      (((processPage env running c store mids).store).map MatchRow.match_id).Nodup := by
  induction mids with
  | nil => intro c store h; simpa [processPage] using h
  | cons mid rest ih =>
    intro c store h
    unfold processPage
    split
    · exact h
    · exact ih (c + 1) _ (processMatch_nodup h)

theorem processRound_nodup (env : WorkerEnv) (running : Nat → Bool)
    (players : List (Nat × Nat)) :
    ∀ (c : Nat) (store : List MatchRow), (store.map MatchRow.match_id).Nodup →
      (((processRound env running c store players).store).map MatchRow.match_id).Nodup := by
  induction players with
  | nil => intro c store h; simpa [processRound] using h
  | cons pl rest ih =>
    intro c store h
    obtain ⟨p, off⟩ := pl
    unfold processRound
    split
    · exact h
    · refine ih _ _ ?_
      unfold processPlayer
      dsimp only
      split
      · exact h
      · exact processPage_nodup env running _ (c + 1) store h

theorem saveAll_nodup (ops : List (Nat × Patch × MatchData)) :
    ∀ rows : List MatchRow, (rows.map MatchRow.match_id).Nodup →
      ((saveAll ops rows).map MatchRow.match_id).Nodup := by
  induction ops with
  | nil => intro rows h; simpa [saveAll] using h
  | cons op rest ih =>
    intro rows h
    exact ih _ (saveMatch_nodup h)

theorem processPlayer_offset (env : WorkerEnv) (running : Nat → Bool)
    (c : Nat) (store : List MatchRow) (p off : Nat) :
    (processPlayer env running c store p off).offset
      = off + (env.page p off).length := by
  unfold processPlayer
  dsimp only
  split
  · rename_i he
    simp [List.isEmpty_iff.mp he]
  · rfl

/-- In every reachable credential state, validity implies the
"invalid since" timestamp is cleared. -/
theorem reachable_valid_none {s : ApiKeyState} (h : ReachableKeyState s) :
    s.valid = true → s.invalidSince = none := by
  induction h with
  | init => intro; rfl
  | inv now _ ih =>
    unfold markApiKeyInvalid
    split
    · intro hv; cases hv
    · exact ih
  | val _ ih =>
    unfold markApiKeyValid
    split
    · exact ih
    · intro; rfl

/-- Per-round offsets: every roster entry keeps its player identifier,
its offset never decreases, and it either advances by exactly the length
of the page fetched at its old offset (when the player was reached) or is
untouched (when a stop signal broke the loop first). -/
theorem processRound_offsets (env : WorkerEnv) (running : Nat → Bool)
    (players : List (Nat × Nat)) :
    ∀ (c : Nat) (store : List MatchRow),
      List.Forall₂
        (fun (old new : Nat × Nat) =>
          new.1 = old.1 ∧ old.2 ≤ new.2 ∧
            (new.2 = old.2 + (env.page old.1 old.2).length ∨ new.2 = old.2))
        players (processRound env running c store players).players := by
  induction players with
  | nil => intro c store; simp [processRound]
  | cons pl rest ih =>
    intro c store
    obtain ⟨p, off⟩ := pl
    unfold processRound
    split
    · refine List.forall₂_same.mpr ?_
      intro x _
      exact ⟨rfl, le_refl _, Or.inr rfl⟩
    · refine List.Forall₂.cons ?_ (ih _ _)
      refine ⟨rfl, ?_, Or.inl (processPlayer_offset env running (c + 1) store p off)⟩
      rw [processPlayer_offset env running (c + 1) store p off]
      exact Nat.le_add_right _ _

/-- With the stop flag permanently up, every roster entry is reached and
its offset advances by exactly its page length, whatever the environment's
failures. -/
theorem processRound_all_processed (env : WorkerEnv)
    (players : List (Nat × Nat)) :
    ∀ (c : Nat) (store : List MatchRow),
      List.Forall₂
        (fun (old new : Nat × Nat) =>
          new.1 = old.1 ∧ new.2 = old.2 + (env.page old.1 old.2).length)
        players (processRound env (fun _ => true) c store players).players := by
  induction players with
  | nil => intro c store; simp [processRound]
  | cons pl rest ih =>
    intro c store
    obtain ⟨p, off⟩ := pl
    unfold processRound
    split
    · rename_i hfalse
      cases hfalse
    · exact List.Forall₂.cons
        ⟨rfl, processPlayer_offset env (fun _ => true) (c + 1) store p off⟩ (ih _ _)

/-- The cooperative stop check: when `running` goes down permanently after
`m` checks, the per-match loop examines `min (m - c) mids.length`
identifiers starting from counter value `c`. -/
theorem processPage_examined (env : WorkerEnv) (running : Nat → Bool)
    (m : Nat) (hr : ∀ i, running i = decide (i < m)) (mids : List Nat) :
    ∀ (c : Nat) (store : List MatchRow),
      (processPage env running c store mids).examined = min (m - c) mids.length := by
  induction mids with
  | nil => intro c store; simp [processPage]
  | cons mid rest ih =>
    intro c store
    unfold processPage
    rw [hr c]
    by_cases hcm : c < m
    · rw [if_neg (by simp [hcm])]
      dsimp only
      rw [ih (c + 1) _]
      have : m - c = (m - (c + 1)) + 1 := by omega
      rw [this, List.length_cons]
      omega
    · rw [if_pos (by simp [hcm])]
      have : m - c = 0 := by omega
      simp [this]

/-- A `take`-page equals the `take` of its own length. -/
theorem take_eq_take_own_length {α : Type} (l : List α) (count : Nat) :
    l.take count = l.take (l.take count).length := by
  rw [List.length_take]
  rcases Nat.le_total count l.length with h | h
  · rw [min_eq_left h]
  · rw [min_eq_right h, List.take_length, List.take_of_length_le h]

/-- In a duplicate-free list, the elements of `l.take n` never reappear in
`l.drop n`. -/
theorem nodup_take_not_mem_drop {α : Type} {l : List α} (h : l.Nodup)
    (n : Nat) {x : α} (hx : x ∈ l.take n) : x ∉ l.drop n := by
  have hsplit : l.take n ++ l.drop n = l := List.take_append_drop n l
  have : (l.take n ++ l.drop n).Nodup := by rw [hsplit]; exact h
  exact (List.nodup_append.mp this).2.2 hx

/-- Identifiers in one page never reappear in the page fetched after the
offset advanced past them. -/
theorem page_not_refetched {hist : List Nat} (h : hist.Nodup)
    (off count : Nat) {x : Nat} (hx : x ∈ apiPage hist off count) :
    x ∉ apiPage hist (off + (apiPage hist off count).length) count := by
  intro hmem
  have hx' : x ∈ (hist.drop off).take (apiPage hist off count).length := by
    have he := take_eq_take_own_length (hist.drop off) count
    have hx2 : x ∈ (hist.drop off).take count := hx
    rw [he] at hx2
    exact hx2
  have hnl : (hist.drop off).Nodup :=
    List.Nodup.sublist (List.drop_sublist off hist) h
  have hnot := nodup_take_not_mem_drop hnl (apiPage hist off count).length hx'
  apply hnot
  have hx3 : x ∈ hist.drop (off + (apiPage hist off count).length) :=
    List.take_subset _ _ hmem
  have hdd : (hist.drop off).drop (apiPage hist off count).length
      = hist.drop (off + (apiPage hist off count).length) := by
    rw [List.drop_drop, Nat.add_comm]
  rw [hdd]
  exact hx3

/-- `detectCmp a b ≤ 0` says `a` is numerically at least `b`
(major first, then minor). -/
theorem detectCmp_le_iff {a b : Patch} :
    detectCmp a b ≤ 0 ↔ b.1 < a.1 ∨ (a.1 = b.1 ∧ b.2 ≤ a.2) := by
  unfold detectCmp
  split
  · rename_i hne
    constructor
    · intro h
      left
      omega
    · intro h
      rcases h with h | h
      · omega
      · exact absurd h.1 hne
  · rename_i heq
    push_neg at heq
    constructor
    · intro h
      right
      exact ⟨heq, by omega⟩
    · intro h
      rcases h with h | h
      · omega
      · omega

theorem detectCmp_total (a b : Patch) : detectCmp a b ≤ 0 ∨ detectCmp b a ≤ 0 := by
  rw [detectCmp_le_iff, detectCmp_le_iff]
  omega

theorem detectCmp_trans {a b c : Patch} (h1 : detectCmp a b ≤ 0)
    (h2 : detectCmp b c ≤ 0) : detectCmp a c ≤ 0 := by
  rw [detectCmp_le_iff] at h1 h2 ⊢
  omega

theorem mem_insertDesc {x p : Patch} : ∀ {l : List Patch},
    x ∈ insertDesc p l ↔ x = p ∨ x ∈ l := by
  intro l
  induction l with
  | nil => simp [insertDesc]
  | cons q rest ih =>
    unfold insertDesc
    split
    · simp
    · rw [List.mem_cons, ih, List.mem_cons]
      tauto

theorem insertDesc_sorted {p : Patch} : ∀ {l : List Patch},
    List.Pairwise (fun a b => detectCmp a b ≤ 0) l →
    List.Pairwise (fun a b => detectCmp a b ≤ 0) (insertDesc p l) := by
  intro l
  induction l with
  | nil => intro _; exact List.pairwise_singleton _ _
  | cons q rest ih =>
    intro hp
    obtain ⟨hq, hrest⟩ := List.pairwise_cons.mp hp
    unfold insertDesc
    split
    · rename_i hle
      refine List.pairwise_cons.mpr ⟨?_, hp⟩
      intro b hb
      rcases List.mem_cons.mp hb with rfl | hb'
      · exact hle
      · exact detectCmp_trans hle (hq b hb')
    · rename_i hnle
      have hqp : detectCmp q p ≤ 0 := by
        rcases detectCmp_total p q with hx | hx
        · exact absurd hx hnle
        · exact hx
      refine List.pairwise_cons.mpr ⟨?_, ih hrest⟩
      intro b hb
      rcases mem_insertDesc.mp hb with rfl | hb'
      · exact hqp
      · exact hq b hb'

theorem sortPatchesDesc_sorted (keys : List Patch) :
    List.Pairwise (fun a b => detectCmp a b ≤ 0) (sortPatchesDesc keys) := by
  unfold sortPatchesDesc
  induction keys with
  | nil => exact List.Pairwise.nil
  | cons k rest ih => exact insertDesc_sorted ih

theorem mem_sortPatchesDesc {x : Patch} {keys : List Patch} :
    x ∈ sortPatchesDesc keys ↔ x ∈ keys := by
  unfold sortPatchesDesc
  induction keys with
  | nil => simp
  | cons k rest ih =>
    rw [List.foldr_cons, mem_insertDesc, List.mem_cons, ih]

/-- The sorted key list of `detectLatestPatch` starts with a numerically
greatest sampled patch. -/
theorem sortPatchesDesc_head_max {keys : List Patch} {p : Patch}
    {rest : List Patch} (h : sortPatchesDesc keys = p :: rest) :
    p ∈ keys ∧ ∀ q ∈ keys, detectCmp p q ≤ 0 := by
  have hmem : p ∈ keys :=
    mem_sortPatchesDesc.mp (by rw [h]; exact List.mem_cons_self _ _)
  have hsorted := sortPatchesDesc_sorted keys
  rw [h] at hsorted
  refine ⟨hmem, ?_⟩
  intro q hq
  have hq' : q ∈ p :: rest := by
    rw [← h]
    exact mem_sortPatchesDesc.mpr hq
  rcases List.mem_cons.mp hq' with rfl | hq''
  · exact detectCmp_le_iff.mpr (Or.inr ⟨rfl, le_refl _⟩)
  · exact (List.pairwise_cons.mp hsorted).1 q hq''

/-! ## Concrete fixtures for witnesses and counterexamples -/

set_option maxRecDepth 1000000

/-- A concrete ranked match payload: queue 420, 1800 s duration. -/
def sampleMatch (id : Nat) (ver : List Nat) (creation : Nat) : MatchData :=
  ⟨id, ⟨creation, 1800, ver, 420⟩⟩

/-- A concrete environment: every player's page is `[5, 6]`, every detail
fetch succeeds with a ranked 14.24 match, no persistence errors, no
target patch. -/
def envW : WorkerEnv :=
  ⟨fun _ _ => [5, 6],
   fun m => some (sampleMatch m [14, 24, 1, 1] 1700000000000),
   fun _ => false, none⟩

/-! ## Claims -/

/-- C1: for every sequence of match identifiers processed by scrape
rounds, possibly containing duplicates across rounds or workers, the
persisted match store contains each unique identifier at most once:
`saveMatch` of a present identifier leaves the table unchanged, the
worker skips a known identifier before fetching details, and both an
arbitrary interleaving of `saveMatch` calls and an arbitrary scrape
round preserve key uniqueness. -/
theorem match_store_dedup :
    (∀ (rows : List MatchRow) (id : Nat) (patch : Patch) (d : MatchData),
      matchExists rows id = true → (saveMatch false rows id patch d).2 = rows) ∧
    (∀ (env : WorkerEnv) (store : List MatchRow) (mid : Nat),
      matchExists store mid = true →
      processMatch env store mid = ⟨store, false, false⟩) ∧
    (∀ (ops : List (Nat × Patch × MatchData)) (rows : List MatchRow),
      (rows.map MatchRow.match_id).Nodup →
      ((saveAll ops rows).map MatchRow.match_id).Nodup) ∧
    (∀ (env : WorkerEnv) (running : Nat → Bool) (c : Nat)
      (store : List MatchRow) (players : List (Nat × Nat)),
      (store.map MatchRow.match_id).Nodup →
      (((processRound env running c store players).store).map
        MatchRow.match_id).Nodup) := by
  refine ⟨?_, ?_, ?_, ?_⟩
  · intro rows id patch d hex
    simp [saveMatch, insertMatchRow, hex]
  · intro env store mid hex
    simp [processMatch, hex]
  · intro ops rows h
    exact saveAll_nodup ops rows h
  · intro env running c store players h
    exact processRound_nodup env running players c store h

/-- Witness for C1 at concrete inputs: a one-row table, a duplicate
insertion sequence, and a concrete round. -/
theorem match_store_dedup_witness :
    matchExists [⟨5, (14, 24), sampleMatch 5 [14, 24, 1, 1] 0⟩] 5 = true ∧
    (saveMatch false [⟨5, (14, 24), sampleMatch 5 [14, 24, 1, 1] 0⟩] 5 (14, 24)
        (sampleMatch 5 [14, 24, 1, 1] 0)).2
      = [⟨5, (14, 24), sampleMatch 5 [14, 24, 1, 1] 0⟩] ∧
    processMatch envW [⟨5, (14, 24), sampleMatch 5 [14, 24, 1, 1] 0⟩] 5
      = ⟨[⟨5, (14, 24), sampleMatch 5 [14, 24, 1, 1] 0⟩], false, false⟩ ∧
    ((saveAll [(5, (14, 24), sampleMatch 5 [14, 24, 1, 1] 0),
               (5, (14, 24), sampleMatch 5 [14, 24, 1, 1] 0)] []).map
      MatchRow.match_id).Nodup ∧
    (((processRound envW (fun _ => true) 0 [] [(1, 0)]).store).map
      MatchRow.match_id).Nodup :=
  ⟨by decide,
   match_store_dedup.1 _ _ _ _ (by decide),
   match_store_dedup.2.1 _ _ _ (by decide),
   match_store_dedup.2.2.1 _ _ (by decide),
   match_store_dedup.2.2.2 _ _ _ _ _ (by decide)⟩

/-- C2: with burst limit 20/1s and sustained limit 100/120s, in a run of
25 immediate calls, calls 21–25 each execute no earlier than 1 s after
call 1's recorded timestamp; in a run of 101 immediate calls — all issued
within the 120 s window — call 101's computed sustained wait equals the
remaining window time past call 1's timestamp plus the 100 ms safety
margin, and call 101 executes only after the window has slid past call
1's timestamp. -/
theorem rateLimiter_window_delays :
    (rtime 25 20 ≥ rtime 25 0 + burstWindowMs ∧
     rtime 25 21 ≥ rtime 25 0 + burstWindowMs ∧
     rtime 25 22 ≥ rtime 25 0 + burstWindowMs ∧
     rtime 25 23 ≥ rtime 25 0 + burstWindowMs ∧
     rtime 25 24 ≥ rtime 25 0 + burstWindowMs) ∧
    (rtime 101 99 - rtime 101 0 < sustainedWindowMs ∧
     swait 101 100 = sustainedWindowMs - (rtime 101 99 - rtime 101 0) + 100 ∧
     rtime 101 100 ≥ rtime 101 0 + sustainedWindowMs) := by
  decide

/-- C3: a 401 during a request in a valid credential state flips the
state to invalid and records the current time; the timestamp is written
only on the valid-to-invalid transition (`markApiKeyInvalid` is a no-op
when already invalid); and a successful response yields a valid state
with a cleared timestamp. -/
theorem credential_breaker_transitions :
    (∀ (key : ApiKeyState) (resp : Nat → ApiResponse) (now : Nat) (h : Option Nat),
      key.valid = true → resp 0 = .http 401 h →
      (request resp key now 3).key = ⟨false, some now⟩ ∧
      (request resp key now 3).outcome = .threwInvalid) ∧
    (∀ (key : ApiKeyState) (now : Nat), key.valid = true →
      markApiKeyInvalid now key = ⟨false, some now⟩) ∧
    (∀ (key : ApiKeyState) (now : Nat), key.valid = false →
      markApiKeyInvalid now key = key) ∧
    (∀ (key : ApiKeyState) (resp : Nat → ApiResponse) (now : Nat),
      ReachableKeyState key → resp 0 = .success →
      (request resp key now 3).outcome = .payload →
      (request resp key now 3).key = ⟨true, none⟩) := by
  refine ⟨?_, ?_, ?_, ?_⟩
  · intro key resp now h hv h401
    have hr : request resp key now 3
        = ⟨.threwInvalid, markApiKeyInvalid now key, 0, 0 + 1⟩ := by
      unfold request
      rw [if_neg (by simp [hv])]
      show requestLoop resp now 0 (2 + 1) key 0 0 = _
      unfold requestLoop
      rw [h401]
      simp
    rw [hr]
    exact ⟨by simp [markApiKeyInvalid, hv], rfl⟩
  · intro key now hv
    simp [markApiKeyInvalid, hv]
  · intro key now hv
    simp [markApiKeyInvalid, hv]
  · intro key resp now hreach hsucc
    by_cases hv : key.valid = true
    · have hr : request resp key now 3
          = ⟨.payload, markApiKeyValid key, 0, 0 + 1⟩ := by
        unfold request
        rw [if_neg (by simp [hv])]
        show requestLoop resp now 0 (2 + 1) key 0 0 = _
        unfold requestLoop
        rw [hsucc]
      rw [hr]
      intro _
      have hnone := reachable_valid_none hreach hv
      simp [markApiKeyValid, hv]
      cases key
      simp_all
    · have : request resp key now 3 = ⟨.threwInvalid, key, 0, 0⟩ := by
        unfold request
        rw [if_pos (by simpa using hv)]
      rw [this]
      intro hcontra
      cases hcontra


/-- Witness for C3: the initial valid state, a 401 oracle, and a success
oracle at concrete times. -/
theorem credential_breaker_transitions_witness :
    ((request (fun _ => ApiResponse.http 401 none) initialApiKeyState 5 3).key
        = ⟨false, some 5⟩ ∧
      (request (fun _ => ApiResponse.http 401 none) initialApiKeyState 5 3).outcome
        = Outcome.threwInvalid) ∧
    markApiKeyInvalid 6 initialApiKeyState = ⟨false, some 6⟩ ∧
    markApiKeyInvalid 7 ⟨false, some 6⟩ = ⟨false, some 6⟩ ∧
    (request (fun _ => ApiResponse.success) initialApiKeyState 9 3).key
      = ⟨true, none⟩ :=
  ⟨credential_breaker_transitions.1 _ _ _ none (by decide) rfl,
   credential_breaker_transitions.2.1 _ _ (by decide),
   credential_breaker_transitions.2.2.1 _ _ (by decide),
   credential_breaker_transitions.2.2.2 _ _ _ ReachableKeyState.init rfl (by decide)⟩

/-- C4 counterexample: three consecutive 429 responses exhaust the whole
three-attempt budget — each 429 `continue` advances the `attempt`
counter — and the call degrades to "no data" after sleeping the 5 s
fallback three times.  This refutes the claim that a retry after a 429
does not count against the failed-attempt budget and that the budget can
never be exhausted by 429 responses alone. -/
theorem rateLimited_budget_exhausted_by_429 :
    (request (fun _ => ApiResponse.http 429 none) initialApiKeyState 0 3).outcome
      = Outcome.noData ∧
    (request (fun _ => ApiResponse.http 429 none) initialApiKeyState 0 3).attemptsUsed
      = 3 ∧
    (request (fun _ => ApiResponse.http 429 none) initialApiKeyState 0 3).sleptMs
      = 15000 := by
  decide

/-- C4 (amended): on a 429 the client sleeps the server-supplied
retry-after (in seconds; defaulting to 5 when the header is absent) and
then retries the same call — but the retry consumes one unit of the
fixed attempt budget, so a run of 429 responses alone can exhaust the
budget, degrading the call to "no data" after three attempts. -/
theorem rateLimited_retry_consumes_budget :
    (∀ (resp : Nat → ApiResponse) (now attempt fuel slept used : Nat)
      (key : ApiKeyState) (h : Option Nat),
      resp attempt = .http 429 h →
      requestLoop resp now attempt (fuel + 1) key slept used =
        requestLoop resp now (attempt + 1) fuel key
          (slept + h.getD 5 * 1000) (used + 1)) ∧
    (∀ key : ApiKeyState, key.valid = true →
      request (fun _ => .http 429 none) key 0 3 = ⟨.noData, key, 15000, 3⟩) := by
  constructor
  · intro resp now attempt fuel slept used key h h429
    conv_lhs => rw [requestLoop]
    rw [h429]
    simp
  · intro key hv
    unfold request
    rw [if_neg (by simp [hv])]
    show requestLoop _ 0 0 3 key 0 0 = _
    norm_num [requestLoop]

/-- Witness for C4's amended theorem: a concrete 429 oracle and the
initial state. -/
theorem rateLimited_retry_consumes_budget_witness :
    requestLoop (fun _ => ApiResponse.http 429 (some 7)) 0 0 3
        initialApiKeyState 0 0 =
      requestLoop (fun _ => ApiResponse.http 429 (some 7)) 0 1 2
        initialApiKeyState 7000 1 ∧
    request (fun _ => ApiResponse.http 429 none) initialApiKeyState 0 3
      = ⟨Outcome.noData, initialApiKeyState, 15000, 3⟩ :=
  ⟨rateLimited_retry_consumes_budget.1 _ 0 0 2 0 0 _ (some 7) rfl,
   rateLimited_retry_consumes_budget.2 _ (by decide)⟩

/-- C5: for every player, the stored offset never decreases across a
round, and a player whose page of `n` identifiers was fetched ends its
iteration with its offset advanced by exactly `n` — a formula that
depends only on the page length, not on how many identifiers were
deduplicated, absent, filtered, or off-target-patch. -/
theorem player_offset_advances_by_page_length :
    (∀ (env : WorkerEnv) (running : Nat → Bool) (c : Nat)
      (store : List MatchRow) (p off : Nat),
      (processPlayer env running c store p off).offset
        = off + (env.page p off).length) ∧
    (∀ (env : WorkerEnv) (running : Nat → Bool) (c : Nat)
      (store : List MatchRow) (players : List (Nat × Nat)),
      List.Forall₂
        (fun (old new : Nat × Nat) =>
          new.1 = old.1 ∧ old.2 ≤ new.2 ∧
            (new.2 = old.2 + (env.page old.1 old.2).length ∨ new.2 = old.2))
        players (processRound env running c store players).players) :=
  ⟨fun env running c store p off => processPlayer_offset env running c store p off,
   fun env running c store players => processRound_offsets env running players c store⟩

/-- C6 counterexample: a player with a one-identifier history whose
detail fetch degrades to "no data".  The identifier is skipped and not
persisted, yet the offset still advances past it, so the page fetched in
the next round is empty: the skipped match is not revisited in the next
round, contrary to the claim. -/
theorem failed_match_fetch_not_revisited :
    (processRound
        ⟨fun _ off => apiPage [7] off 100, fun _ => none, fun _ => false, none⟩
        (fun _ => true) 0 [] [(1, 0)]).players = [(1, 1)] ∧
    matchExists
      (processRound
        ⟨fun _ off => apiPage [7] off 100, fun _ => none, fun _ => false, none⟩
        (fun _ => true) 0 [] [(1, 0)]).store 7 = false ∧
    apiPage [7] 1 100 = [] := by
  decide

/-- C6 (amended): no failure of a single match or player fetch (fetch
returning no data, validation rejection, or persistence error) aborts the
enclosing scrape round: whatever the environment's failures, every roster
player is still reached and its offset advanced by its page length.  A
player whose page fetch degraded to an empty result keeps its offset
unchanged and is revisited at the same offset next round; a match whose
detail fetch degraded, however, is skipped permanently — the offset
advances past it (see the counterexample). -/
theorem round_survives_item_failures :
    (∀ (env : WorkerEnv) (c : Nat) (store : List MatchRow)
      (players : List (Nat × Nat)),
      (processRound env (fun _ => true) c store players).players.length
          = players.length ∧
      List.Forall₂
        (fun (old new : Nat × Nat) =>
          new.1 = old.1 ∧ new.2 = old.2 + (env.page old.1 old.2).length)
        players (processRound env (fun _ => true) c store players).players) ∧
    (∀ (env : WorkerEnv) (running : Nat → Bool) (c : Nat)
      (store : List MatchRow) (p off : Nat),
      env.page p off = [] →
      (processPlayer env running c store p off).offset = off) := by
  constructor
  · intro env c store players
    have h := processRound_all_processed env players c store
    exact ⟨h.length_eq.symm, h⟩
  · intro env running c store p off hempty
    rw [processPlayer_offset env running c store p off, hempty]
    rfl

/-- Witness for C6's amended theorem: a concrete round in which every
detail fetch fails, and a concrete player with an empty page. -/
theorem round_survives_item_failures_witness :
    ((processRound
        ⟨fun _ off => apiPage [7] off 100, fun _ => none, fun _ => false, none⟩
        (fun _ => true) 0 [] [(1, 0)]).players.length = 1 ∧
      List.Forall₂
        (fun (old new : Nat × Nat) =>
          new.1 = old.1 ∧
            new.2 = old.2
              + ((fun (_ off : Nat) => apiPage [7] off 100) old.1 old.2).length)
        [(1, 0)]
        (processRound
          ⟨fun _ off => apiPage [7] off 100, fun _ => none, fun _ => false, none⟩
          (fun _ => true) 0 [] [(1, 0)]).players) ∧
    (processPlayer
        ⟨fun _ _ => [], fun _ => none, fun _ => false, none⟩
        (fun _ => true) 0 [] 1 3).offset = 3 :=
  ⟨round_survives_item_failures.1
      ⟨fun _ off => apiPage [7] off 100, fun _ => none, fun _ => false, none⟩
      0 [] [(1, 0)],
   round_survives_item_failures.2
      ⟨fun _ _ => [], fun _ => none, fun _ => false, none⟩
      (fun _ => true) 0 [] 1 3 rfl⟩

/-- Detail oracle with most-recent versions 15.1, 14.9 and 14.24 for
players 1–3 respectively. -/
def detWithNewer : Nat → Option MatchData := fun m =>
  if m = 1 then some (sampleMatch 1 [15, 1, 100, 1] 1700000000000)
  else if m = 2 then some (sampleMatch 2 [14, 9, 100, 1] 1700000000000)
  else if m = 3 then some (sampleMatch 3 [14, 24, 100, 1] 1700000000000)
  else none

/-- Detail oracle realizing the spec's sample
{"14.23", "14.24", "14.24", "14.22", "14.24"} for players 1–5. -/
def detSpecSample : Nat → Option MatchData := fun m =>
  if m = 1 then some (sampleMatch 1 [14, 23, 1, 1] 1700000000000)
  else if m = 2 then some (sampleMatch 2 [14, 24, 1, 1] 1700000000000)
  else if m = 3 then some (sampleMatch 3 [14, 24, 1, 1] 1700000000000)
  else if m = 4 then some (sampleMatch 4 [14, 22, 1, 1] 1700000000000)
  else if m = 5 then some (sampleMatch 5 [14, 24, 1, 1] 1700000000000)
  else none

/-- C7 counterexample: a sample whose most-recent versions are 15.1, 14.9
and 14.24 contains both "14.9" and "14.24", yet `detectLatestPatch`
returns 15.1, not 14.24 — the claim's "for any sample containing 14.9 and
14.24 it returns 14.24" fails whenever something numerically greater was
also sampled. -/
theorem detect_patch_newer_version_wins :
    (14, 9) ∈ sampledKeys (fun p => [p]) detWithNewer [1, 2, 3] ∧
    (14, 24) ∈ sampledKeys (fun p => [p]) detWithNewer [1, 2, 3] ∧
    detectLatestPatch (fun p => [p]) detWithNewer [1, 2, 3] = some (15, 1) ∧
    ¬ detectLatestPatch (fun p => [p]) detWithNewer [1, 2, 3] = some (14, 24) := by
  decide

/-- C7 (amended): patch auto-detection selects the numerically greatest
(major, minor) version among the sampled players' most recent matches,
compared component-wise as integers rather than lexicographically: for
the spec's sample {"14.23", "14.24", "14.24", "14.22", "14.24"} it
returns "14.24", and for any sample containing "14.9" and "14.24" it
returns a version numerically at least "14.24" (exactly "14.24" when
nothing greater was sampled) — never "14.9". -/
theorem detect_patch_numeric_max :
    (∀ (pageAt : Nat → List Nat) (details : Nat → Option MatchData)
      (players : List Nat) (p : Patch),
      detectLatestPatch pageAt details players = some p →
      p ∈ sampledKeys pageAt details players ∧
      ∀ q ∈ sampledKeys pageAt details players, detectCmp p q ≤ 0) ∧
    detectLatestPatch (fun p => [p]) detSpecSample [1, 2, 3, 4, 5]
      = some (14, 24) := by
  constructor
  · intro pageAt details players p hd
    unfold detectLatestPatch at hd
    rcases hsort : sortPatchesDesc (sampledKeys pageAt details players) with
      _ | ⟨q, rest⟩
    · rw [hsort] at hd
      cases hd
    · rw [hsort] at hd
      injection hd with hqp
      subst hqp
      exact sortPatchesDesc_head_max hsort
  · decide

/-- Witness for C7's amended theorem at the spec's concrete sample. -/
theorem detect_patch_numeric_max_witness :
    (14, 24) ∈ sampledKeys (fun p => [p]) detSpecSample [1, 2, 3, 4, 5] ∧
    ∀ q ∈ sampledKeys (fun p => [p]) detSpecSample [1, 2, 3, 4, 5],
      detectCmp (14, 24) q ≤ 0 :=
  detect_patch_numeric_max.1 (fun p => [p]) detSpecSample [1, 2, 3, 4, 5]
    (14, 24) (by decide)

/-- Detail oracle for the boundary sample: identifiers 1–3 are 14.24
matches with creations `c1 c2 c3` (newest to oldest), identifier 4 is a
14.23 match with creation `c4`, and identifier 5 maps to an arbitrary
`d5` — the scan must never look at it. -/
def boundarySample (c1 c2 c3 c4 : Nat) (d5 : Option MatchData) :
    Nat → Option MatchData := fun m =>
  if m = 1 then some (sampleMatch 1 [14, 24, 100, 1] c1)
  else if m = 2 then some (sampleMatch 2 [14, 24, 105, 2] c2)
  else if m = 3 then some (sampleMatch 3 [14, 24, 110, 3] c3)
  else if m = 4 then some (sampleMatch 4 [14, 23, 120, 4] c4)
  else d5

/-- C8: over a newest-to-oldest sample with versions
[14.24, 14.24, 14.24, 14.23, 14.23] and target 14.24 (empty DB, valid
timestamps), the boundary is the timestamp of the third — oldest —
14.24 match, and the scan stops at the first numerically older version:
only 4 of the 5 identifiers are ever examined, whatever the fifth entry
is.  Additionally, any match whose timestamp is below the sanity floor
is discarded: it is neither recorded nor does it stop the scan. -/
theorem patch_boundary_scan :
    (∀ (c1 c2 c3 c4 : Nat) (d5 : Option MatchData),
      sanityFloor ≤ c1 / 1000 → sanityFloor ≤ c2 / 1000 →
      sanityFloor ≤ c3 / 1000 → sanityFloor ≤ c4 / 1000 →
      findPatchBoundary (boundarySample c1 c2 c3 c4 d5) (some (14, 24)) none
          [1, 2, 3, 4, 5]
        = ⟨some (c3 / 1000), 4⟩) ∧
    (∀ (details : Nat → Option MatchData) (target : Patch) (mid : Nat)
      (rest : List Nat) (acc : Option Nat) (md : MatchData),
      details mid = some md → md.info.gameCreation / 1000 < sanityFloor →
      scanBoundary details target (mid :: rest) acc
        = ⟨(scanBoundary details target rest acc).boundary,
           (scanBoundary details target rest acc).examined + 1⟩) := by
  constructor
  · intro c1 c2 c3 c4 d5 h1 h2 h3 h4
    have h1' : ¬ (c1 / 1000 < sanityFloor) := Nat.not_lt.mpr h1
    have h2' : ¬ (c2 / 1000 < sanityFloor) := Nat.not_lt.mpr h2
    have h3' : ¬ (c3 / 1000 < sanityFloor) := Nat.not_lt.mpr h3
    have h4' : ¬ (c4 / 1000 < sanityFloor) := Nat.not_lt.mpr h4
    simp [findPatchBoundary, scanBoundary, boundarySample, sampleMatch,
      extractPatch, comparePatch, h1', h2', h3', h4']
  · intro details target mid rest acc md hmd hlow
    conv_lhs => rw [scanBoundary, hmd]
    simp [hlow]

/-- Witness for C8: concrete timestamps above the sanity floor for the
main scan, and a concrete sub-floor match for the discard step. -/
theorem patch_boundary_scan_witness :
    findPatchBoundary (boundarySample 1700000300000 1700000200000
        1700000100000 1700000000000 none) (some (14, 24)) none [1, 2, 3, 4, 5]
      = ⟨some (1700000100000 / 1000), 4⟩ ∧
    scanBoundary (fun _ => some (sampleMatch 9 [14, 24, 1, 1] 5)) (14, 24)
        [9] none
      = ⟨(scanBoundary (fun _ => some (sampleMatch 9 [14, 24, 1, 1] 5))
            (14, 24) [] none).boundary,
         (scanBoundary (fun _ => some (sampleMatch 9 [14, 24, 1, 1] 5))
            (14, 24) [] none).examined + 1⟩ :=
  ⟨patch_boundary_scan.1 1700000300000 1700000200000 1700000100000
     1700000000000 none (by decide) (by decide) (by decide) (by decide),
   patch_boundary_scan.2 _ (14, 24) 9 [] none
     (sampleMatch 9 [14, 24, 1, 1] 5) rfl (by decide)⟩

/-- C9 counterexample: with the identifier already present, `saveMatch`
skips the insert (the table is unchanged) yet still returns `true` — it
does not report whether the match was newly inserted, contrary to the
claim that it returns `false` when the insert was skipped as a
duplicate. -/
theorem saveMatch_true_on_duplicate :
    matchExists [⟨7, (14, 24), sampleMatch 7 [14, 24, 1, 1] 0⟩] 7 = true ∧
    saveMatch false [⟨7, (14, 24), sampleMatch 7 [14, 24, 1, 1] 0⟩] 7 (14, 24)
        (sampleMatch 7 [14, 24, 1, 1] 0)
      = (true, [⟨7, (14, 24), sampleMatch 7 [14, 24, 1, 1] 0⟩]) := by
  decide

/-- C9 (amended): `saveMatch` is a no-op when the identifier is already
present and inserts the row otherwise, but its boolean return reports
only that the insert statement ran without a persistence error — `true`
regardless of whether the row was newly inserted, `false` only when the
statement threw. -/
theorem saveMatch_return_semantics :
    (∀ (rows : List MatchRow) (id : Nat) (patch : Patch) (d : MatchData),
      matchExists rows id = true → (saveMatch false rows id patch d).2 = rows) ∧
    (∀ (rows : List MatchRow) (id : Nat) (patch : Patch) (d : MatchData),
      matchExists rows id = false →
      (saveMatch false rows id patch d).2 = rows ++ [⟨id, patch, d⟩]) ∧
    (∀ (rows : List MatchRow) (id : Nat) (patch : Patch) (d : MatchData),
      (saveMatch false rows id patch d).1 = true) ∧
    (∀ (rows : List MatchRow) (id : Nat) (patch : Patch) (d : MatchData),
      saveMatch true rows id patch d = (false, rows)) := by
  refine ⟨?_, ?_, ?_, ?_⟩
  · intro rows id patch d hex
    simp [saveMatch, insertMatchRow, hex]
  · intro rows id patch d hex
    simp [saveMatch, insertMatchRow, hex]
  · intro rows id patch d
    simp [saveMatch]
  · intro rows id patch d
    simp [saveMatch]

/-- Witness for C9's amended theorem: a present and an absent identifier. -/
theorem saveMatch_return_semantics_witness :
    (saveMatch false [⟨7, (14, 24), sampleMatch 7 [14, 24, 1, 1] 0⟩] 7 (14, 24)
        (sampleMatch 7 [14, 24, 1, 1] 0)).2
      = [⟨7, (14, 24), sampleMatch 7 [14, 24, 1, 1] 0⟩] ∧
    (saveMatch false [] 7 (14, 24) (sampleMatch 7 [14, 24, 1, 1] 0)).2
      = [] ++ [⟨7, (14, 24), sampleMatch 7 [14, 24, 1, 1] 0⟩] ∧
    (saveMatch false [] 7 (14, 24) (sampleMatch 7 [14, 24, 1, 1] 0)).1 = true ∧
    saveMatch true [] 7 (14, 24) (sampleMatch 7 [14, 24, 1, 1] 0)
      = (false, []) :=
  ⟨saveMatch_return_semantics.1 _ _ _ _ (by decide),
   saveMatch_return_semantics.2.1 _ _ _ _ (by decide),
   saveMatch_return_semantics.2.2.1 _ _ _ _,
   saveMatch_return_semantics.2.2.2 _ _ _ _⟩

/-- C10: if the stop signal arrives after `k` cooperative checks while
the worker is partway through a page of `n` identifiers (`k < n`), the
per-match loop exits early — only `k` identifiers are examined — yet the
player's stored offset is still advanced by the full `n` before the
round ends; the identifiers never examined do not appear in the page
fetched at the advanced offset, so they are permanently skipped after a
restart of the loop. -/
theorem stop_mid_page_skips_rest_permanently :
    ∀ (env : WorkerEnv) (hist : List Nat) (count off k p : Nat)
      (store : List MatchRow),
      env.page p off = apiPage hist off count →
      hist.Nodup →
      k < (apiPage hist off count).length →
      (processPlayer env (fun i => decide (i < k)) 0 store p off).offset
          = off + (apiPage hist off count).length ∧
      (processPage env (fun i => decide (i < k)) 0 store
          (apiPage hist off count)).examined = k ∧
      ∀ x ∈ (apiPage hist off count).drop k,
        x ∉ apiPage hist (off + (apiPage hist off count).length) count := by
  intro env hist count off k p store hpage hnodup hk
  refine ⟨?_, ?_, ?_⟩
  · rw [processPlayer_offset, hpage]
  · rw [processPage_examined env (fun i => decide (i < k)) k (fun _ => rfl)
      (apiPage hist off count) 0 store, Nat.sub_zero]
    exact min_eq_left (Nat.le_of_lt hk)
  · intro x hx
    exact page_not_refetched hnodup off count (List.drop_subset _ _ hx)

/-- Witness for C10: history `[3, 4, 5]`, page size 2, stop after one
check — identifier 4 is never examined and never refetched. -/
theorem stop_mid_page_skips_rest_permanently_witness :
    (processPlayer
        ⟨fun _ o => apiPage [3, 4, 5] o 2, fun _ => none, fun _ => false, none⟩
        (fun i => decide (i < 1)) 0 [] 1 0).offset
      = 0 + (apiPage [3, 4, 5] 0 2).length ∧
    (processPage
        ⟨fun _ o => apiPage [3, 4, 5] o 2, fun _ => none, fun _ => false, none⟩
        (fun i => decide (i < 1)) 0 [] (apiPage [3, 4, 5] 0 2)).examined = 1 ∧
    ∀ x ∈ (apiPage [3, 4, 5] 0 2).drop 1,
      x ∉ apiPage [3, 4, 5] (0 + (apiPage [3, 4, 5] 0 2).length) 2 :=
  stop_mid_page_skips_rest_permanently
    ⟨fun _ o => apiPage [3, 4, 5] o 2, fun _ => none, fun _ => false, none⟩
    [3, 4, 5] 2 0 1 1 [] rfl (by decide) (by decide)

end LolScraper
